import Mathlib

set_option maxHeartbeats 1000000

/-
Shallow embedding of src/transcript_helper.py (YT-Researcher).

The module under verification retrieves a transcript for a video id from the
youtube_transcript_api library via four successive strategies, normalizes the
raw payload into a canonical list of records, and classifies accumulated error
notes into one diagnostic string when everything fails.

Modelling conventions:
  - Python values flowing through normalize_transcript are modelled by the
    inductive `PyVal`.  Python floats are modelled as rationals: the code under
    verification performs no floating-point arithmetic at all, only `float(x)`
    conversions of values that are already ints or floats (exact in every case
    exercised here), so the rational model is faithful for every claim.
    NaN/infinity and float rounding are outside the model.
  - Python exceptions are modelled by `PyExc` (a kind from the library's error
    classes plus a message); fallible operations return `Except PyExc`.
  - The external youtube_transcript_api library (network side) is modelled as
    an explicit environment `ApiEnv` supplying the result of each call the
    source can make; `hasattr` probes are Bool fields of the environment.
-/

inductive PyVal : Type where
  | none : PyVal
  | bool : Bool → PyVal
  | int : Int → PyVal
  | float : ℚ → PyVal
  | str : String → PyVal
  | list : List PyVal → PyVal
  | dict : List (String × PyVal) → PyVal
  | obj : List (String × PyVal) → PyVal

/-
Exception classes imported at the top of transcript_helper.py.  `other`
stands for any exception class not in that import list (generic Exception).
-/
inductive ExcKind : Type where
  | transcriptsDisabled : ExcKind
  | noTranscriptFound : ExcKind
  | noTranscriptAvailable : ExcKind
  | videoUnavailable : ExcKind
  | other : ExcKind
deriving DecidableEq

structure PyExc : Type where
  kind : ExcKind
  msg : String

/-
`type(e).__name__` for the caught exception classes.  The source only reads
the name for the three kinds it catches specifically; the name chosen for
`other` is never used by the embedded code.
-/
def excName : ExcKind → String
  | .transcriptsDisabled => "TranscriptsDisabled"
  | .noTranscriptFound => "NoTranscriptFound"
  | .noTranscriptAvailable => "NoTranscriptAvailable"
  | .videoUnavailable => "VideoUnavailable"
  | .other => "Exception"

/-
The exception kinds caught by
`except (TranscriptsDisabled, NoTranscriptFound, NoTranscriptAvailable)`.
VideoUnavailable is imported by the source but appears in no specific
except-clause, so it falls through to the generic `except Exception` arms.
-/
def kindCaught : ExcKind → Bool
  | .transcriptsDisabled => true
  | .noTranscriptFound => true
  | .noTranscriptAvailable => true
  | _ => false

/- Python `s.lower()` (ASCII model, via Char.toLower). -/
def pyLower (s : String) : String :=
  String.mk (s.data.map Char.toLower)

/- Python `pat in s` substring test. -/
def strContains (s pat : String) : Bool :=
  s.data.tails.any (fun t => pat.data.isPrefixOf t)

/- Best-effort rendering of a rational for Python `str(float)`; only its
stringiness (never its exact content) matters to any claim. -/
def ratRepr (q : ℚ) : String :=
  if q.den = 1 then toString q.num ++ (".0")
  else toString q.num ++ ("/") ++ toString q.den

/-
Python `str(x)`.  Faithful on strings, ints, bools and None (the cases the
claims exercise); renderings of containers and objects are placeholders
because Python's repr of those embeds element reprs and memory addresses,
and no claim constrains those strings.
-/
def pyStr : PyVal → String
  | .str s => s
  | .int n => toString n
  | .float q => ratRepr q
  | .bool b => if b then ("True") else ("False")
  | .none => "None"
  | .list _ => "<list>"
  | .dict _ => "<dict>"
  | .obj _ => "<object>"

/- Python `type(x)` rendering used in one diagnostic message. -/
def pyTypeName : PyVal → String
  | .str _ => "<class 'str'>"
  | .int _ => "<class 'int'>"
  | .float _ => "<class 'float'>"
  | .bool _ => "<class 'bool'>"
  | .none => "<class 'NoneType'>"
  | .list _ => "<class 'list'>"
  | .dict _ => "<class 'dict'>"
  | .obj _ => "<class 'object'>"

/- Python truthiness. Generic objects without __bool__/__len__ are truthy. -/
def pyTruthy : PyVal → Bool
  | .none => false
  | .bool b => b
  | .int n => decide (n ≠ 0)
  | .float q => decide (q ≠ 0)
  | .str s => decide (s ≠ "")
  | .list xs => !xs.isEmpty
  | .dict d => !d.isEmpty
  | .obj _ => true

def truthyOpt : Option PyVal → Bool
  | Option.none => false
  | Option.some v => pyTruthy v

/-
Decimal-string parsing for Python `float(str)`; handles an optional sign,
digits and one decimal point.  Exponents, whitespace, underscores and
inf/nan are outside the model (no claim feeds such a string to float()).
-/
def parseFloat (s : String) : Option ℚ :=
  let core : String :=
    if s.startsWith ("-") ∨ s.startsWith ("+") then s.drop 1 else s
  let sign : ℚ := if s.startsWith ("-") then -1 else 1
  match core.split (fun c => c = '.') with
  | [ip, fp] =>
    if (ip.all Char.isDigit ∧ fp.all Char.isDigit) ∧ (ip ≠ "" ∨ fp ≠ "") then
      Option.some (sign * ((ip.toNat?.getD 0 : ℚ) + (fp.toNat?.getD 0 : ℚ) / ((10 : ℚ) ^ fp.length)))
    else Option.none
  | [ip] =>
    if ip ≠ "" ∧ ip.all Char.isDigit then Option.some (sign * (ip.toNat?.getD 0 : ℚ))
    else Option.none
  | _ => Option.none

/- Python `float(x)`: succeeds on bools, ints, floats and numeric strings,
raises on anything else. -/
def pyFloatExc : PyVal → Except PyExc ℚ
  | .float q => Except.ok q
  | .int n => Except.ok (n : ℚ)
  | .bool b => Except.ok (if b then 1 else 0)
  | .str s =>
    match parseFloat s with
    | Option.some q => Except.ok q
    | Option.none => Except.error ⟨.other, "could not convert string to float"⟩
  | _ => Except.error ⟨.other, "float() argument error"⟩

/-
Python `list(x)`: a list is returned as is (the source skips the coercion
when `isinstance(data, list)`, which is the same value either way); strings
iterate to their characters and dicts to their keys; numbers, None and plain
objects are not iterable and raise.  (The one object shape the source cares
about — a FetchedTranscript carrying a `snippets` attribute — is unwrapped
before this coercion is reached, see `unwrapSnippets`.)
-/
def pyListExc : PyVal → Except PyExc (List PyVal)
  | .list xs => Except.ok xs
  | .str s => Except.ok (s.data.map (fun c => PyVal.str (Char.toString c)))
  | .dict entries => Except.ok (entries.map (fun kv => PyVal.str kv.1))
  | _ => Except.error ⟨.other, "object is not iterable"⟩

/- Python `d.get(key, default)` for our dict model. -/
def dictGet (entries : List (String × PyVal)) (k : String) (dflt : PyVal) : PyVal :=
  (entries.lookup k).getD dflt

/- Python `getattr(item, name, 0.0)` for our object model. -/
def attrGetF (attrs : List (String × PyVal)) (k : String) : PyVal :=
  (attrs.lookup k).getD (PyVal.float 0)

/- Python `hasattr(data, "snippets")`: only objects carry attributes. -/
def hasSnippetsAttr : PyVal → Bool
  | .obj attrs => !((attrs.lookup ("snippets")).isNone)
  | _ => false

/- CASE A of normalize_transcript: `if hasattr(data, 'snippets'): data = data.snippets`. -/
def unwrapSnippets : PyVal → PyVal
  | .obj attrs =>
    match attrs.lookup ("snippets") with
    | Option.some v => v
    | Option.none => .obj attrs
  | d => d

/- The record shape appended by every branch of the normalization loop:
`{'text': ..., 'start': ..., 'duration': ...}` in that insertion order. -/
def canonRec (t : String) (s d : ℚ) : PyVal :=
  .dict [(("text" : String), .str t), (("start" : String), .float s), (("duration" : String), .float d)]

/-
Body of the per-item `try:` block of normalize_transcript (lines 45-79),
without the protective `except Exception: continue`.  The only operations in
that body that can raise in the embedding are the float() conversions.
  CASE B: item is a dict;
  CASE C: item is an object whose text attribute is a string;
  CASE D: item is an object with a text attribute of any other type (a dict
          text attribute is unwrapped to its inner "text" key, defaulting to
          the stringified dict);
  CASE E: anything else is stringified whole.
-/
def normalizeItemExc : PyVal → Except PyExc PyVal
  | .dict entries => do
    let s ← pyFloatExc (dictGet entries ("start") (.float 0))
    let d ← pyFloatExc (dictGet entries ("duration") (.float 0))
    Except.ok (canonRec (pyStr (dictGet entries ("text") (.str ""))) s d)
  | .obj attrs =>
    match attrs.lookup ("text") with
    | Option.some (.str t) => do
      let s ← pyFloatExc (attrGetF attrs ("start"))
      let d ← pyFloatExc (attrGetF attrs ("duration"))
      Except.ok (canonRec t s d)
    | Option.some tv => do
      let tv2 : PyVal :=
        match tv with
        | .dict es => (es.lookup ("text")).getD (.str (pyStr (.dict es)))
        | other => other
      let s ← pyFloatExc (attrGetF attrs ("start"))
      let d ← pyFloatExc (attrGetF attrs ("duration"))
      Except.ok (canonRec (pyStr tv2) s d)
    | Option.none => Except.ok (canonRec (pyStr (.obj attrs)) 0 0)
  | item => Except.ok (canonRec (pyStr item) 0 0)

/- The per-item step with its `except Exception: continue`: a raising item is
dropped (None), a successful one yields its canonical record. -/
def normalizeItem (item : PyVal) : Option PyVal :=
  (normalizeItemExc item).toOption

/-
normalize_transcript (transcript_helper.py lines 25-84).
The `try: data = list(data) except: return []` preamble becomes the match on
`pyListExc`; the loop with its per-item exception handler becomes filterMap.
-/
def normalize_transcript (data : PyVal) : List PyVal :=
  let d := unwrapSnippets data
  match pyListExc d with
  | Except.error _ => []
  | Except.ok items => items.filterMap normalizeItem

/- A record carrying exactly the three canonical fields with their declared
types, in the insertion order the source produces. -/
def isCanonRec : PyVal → Bool
  | .dict [(k1, .str _), (k2, .float _), (k3, .float _)] =>
    k1 == "text" && k2 == "start" && k3 == "duration"
  | _ => false

/-
Python `==` on the embedded values.  Numeric values (bool, int, float) compare
across representations as in Python; strings, lists and dicts compare
structurally with dict comparison insensitive to key order.  Default object
equality in Python is identity, which a value embedding cannot express; no
claim compares objects, so distinct object values compare unequal here.
-/
def numVal : PyVal → Option ℚ
  | .bool b => Option.some (if b then 1 else 0)
  | .int n => Option.some (n : ℚ)
  | .float q => Option.some q
  | _ => Option.none

mutual

def pyEq (a b : PyVal) : Bool :=
  match numVal a, numVal b with
  | Option.some x, Option.some y => decide (x = y)
  | _, _ =>
    match a, b with
    | .none, .none => true
    | .str s, .str t => s == t
    | .list xs, .list ys => pyEqList xs ys
    | .dict d1, .dict d2 => d1.length == d2.length && pyEqDictSub d1 d2
    | _, _ => false
termination_by sizeOf a + sizeOf b

def pyEqList (xs ys : List PyVal) : Bool :=
  match xs, ys with
  | [], [] => true
  | x :: xs1, y :: ys1 => pyEq x y && pyEqList xs1 ys1
  | _, _ => false
termination_by sizeOf xs + sizeOf ys

def pyEqDictSub (d1 d2 : List (String × PyVal)) : Bool :=
  match d1 with
  | [] => true
  | (k, v) :: rest => pyEqLookup k v d2 && pyEqDictSub rest d2
termination_by sizeOf d1 + sizeOf d2
decreasing_by all_goals (simp_wf; try omega)

def pyEqLookup (k : String) (v : PyVal) (d : List (String × PyVal)) : Bool :=
  match d with
  | [] => false
  | (k2, w) :: rest => if k == k2 then pyEq v w else pyEqLookup k v rest
termination_by sizeOf v + sizeOf d
decreasing_by all_goals (simp_wf; try omega)

end

/-
Environment model of the youtube_transcript_api library.  Each field holds
the outcome of one call the source can make; `has_*` fields answer the
hasattr probes.  A handle models one transcript track (the `fetch()` of a
TranscriptList element), and the two list shapes model the static and the
instance interface generations of the library.
-/
structure TranscriptHandle : Type where
  fetch : Except PyExc PyVal

structure StaticTranscriptList : Type where
  find_manual : List String → Except PyExc TranscriptHandle
  find_generated : List String → Except PyExc TranscriptHandle
  tracks : Except PyExc (List TranscriptHandle)

structure InstTranscriptList : Type where
  truthy : Bool
  has_find_transcript : Bool
  has_find_generated : Bool
  find_transcript : List String → Except PyExc TranscriptHandle
  find_generated : List String → Except PyExc TranscriptHandle
  tracks : Except PyExc (List TranscriptHandle)

structure ApiEnv : Type where
  has_get_transcript : Bool
  has_list_transcripts : Bool
  get_transcript : String → List String → Except PyExc PyVal
  list_transcripts : String → Except PyExc StaticTranscriptList
  instantiate : Except PyExc Unit
  inst_list : String → Except PyExc InstTranscriptList

def LANGUAGES_TO_TRY : List String :=
  ["en", "en-US", "en-GB", "en-AU", "en-CA", "en-IN",
   "hi", "hi-IN",
   "es", "fr", "de", "pt", "it", "ru", "ja", "ko", "zh-Hans", "zh-Hant"]

/-
_try_static_get_transcript (lines 87-104).  The error-note list is threaded
explicitly: Python's errors.append becomes returning errors ++ [note].
-/
def _try_static_get_transcript (env : ApiEnv) (video_id : String)
    (languages : List String) (errors : List String) : Option PyVal × List String :=
  if !env.has_get_transcript then (Option.none, errors)
  else
    match env.get_transcript video_id languages with
    | Except.ok v => (Option.some v, errors)
    | Except.error e =>
      if kindCaught e.kind then
        (Option.none, errors ++ ["Static get_transcript: " ++ excName e.kind])
      else
        if strContains e.msg ("Subtitles are disabled") then
          (Option.none, errors ++ ["Subtitles are disabled for this video"])
        else if strContains (pyLower e.msg) ("no transcript") then
          (Option.none, errors ++ ["No transcript available"])
        else
          (Option.none, errors ++ ["Static get_transcript failed: " ++ e.msg.take 100])

/- The `for transcript in transcript_list: try: return transcript.fetch()
except: continue` loop of _try_static_list_transcripts (lines 130-134):
first successful fetch wins, even an empty one. -/
def firstFetch : List TranscriptHandle → Option PyVal
  | [] => Option.none
  | t :: ts =>
    match t.fetch with
    | Except.ok v => Option.some v
    | Except.error _ => firstFetch ts

/-
_try_static_list_transcripts (lines 107-146).  The three inner lookup blocks
each sit under a bare `except: pass`, so a raising find or fetch falls
through silently; only the initial list_transcripts call can reach the two
outer except arms.
-/
def _try_static_list_transcripts (env : ApiEnv) (video_id : String)
    (languages : List String) (errors : List String) : Option PyVal × List String :=
  if !env.has_list_transcripts then (Option.none, errors)
  else
    match env.list_transcripts video_id with
    | Except.ok tl =>
      match tl.find_manual languages >>= TranscriptHandle.fetch with
      | Except.ok v => (Option.some v, errors)
      | Except.error _ =>
        match tl.find_generated languages >>= TranscriptHandle.fetch with
        | Except.ok v => (Option.some v, errors)
        | Except.error _ =>
          match tl.tracks with
          | Except.ok ts => (firstFetch ts, errors)
          | Except.error _ => (Option.none, errors)
    | Except.error e =>
      if kindCaught e.kind then
        (Option.none, errors ++ ["Static list_transcripts: " ++ excName e.kind])
      else if !(strContains e.msg ("Subtitles are disabled")) then
        (Option.none, errors ++ ["Static list_transcripts: " ++ e.msg.take 80])
      else
        (Option.none, errors)

/- The fallback loop of _try_instance_api (lines 192-201): `data = t.fetch();
if data: return data` — a falsy fetch result is skipped. -/
def firstTruthyFetch : List TranscriptHandle → Option PyVal
  | [] => Option.none
  | t :: ts =>
    match t.fetch with
    | Except.ok v => if pyTruthy v then Option.some v else firstTruthyFetch ts
    | Except.error _ => firstTruthyFetch ts

/-
_try_instance_api (lines 149-203).  Construction of the API object and the
list() call have their own handlers; the find blocks sit under bare
`except: pass` guarded by hasattr probes; `if not transcript_list` is the
truthiness field of the listing object.
-/
def _try_instance_api (env : ApiEnv) (video_id : String)
    (languages : List String) (errors : List String) : Option PyVal × List String :=
  match env.instantiate with
  | Except.error e => (Option.none, errors ++ ["Cannot instantiate API: " ++ e.msg.take 50])
  | Except.ok _ =>
    match env.inst_list video_id with
    | Except.error e =>
      if kindCaught e.kind then
        (Option.none, errors ++ ["Instance list: " ++ excName e.kind])
      else if strContains e.msg ("Subtitles are disabled") then
        (Option.none, errors ++ ["Subtitles disabled"])
      else if strContains (pyLower e.msg) ("no transcript") then
        (Option.none, errors ++ ["No transcript available"])
      else
        (Option.none, errors ++ ["Instance list failed: " ++ e.msg.take 80])
    | Except.ok tl =>
      if !tl.truthy then (Option.none, errors)
      else
        match (if tl.has_find_transcript then (tl.find_transcript languages >>= TranscriptHandle.fetch).toOption else Option.none) with
        | Option.some v => (Option.some v, errors)
        | Option.none =>
          match (if tl.has_find_generated then (tl.find_generated languages >>= TranscriptHandle.fetch).toOption else Option.none) with
          | Option.some v => (Option.some v, errors)
          | Option.none =>
            match tl.tracks with
            | Except.ok ts => (firstTruthyFetch ts, errors)
            | Except.error _ => (Option.none, errors)

/-
The strategy cascade of get_video_transcript (lines 217-237): raw_data is
overwritten by each strategy attempted, a strategy runs only while the
current raw_data is falsy, and strategy 4 keeps the old (falsy) raw_data if
its direct call raises (`except: pass`) and appends no note ever.
-/
def fetchRaw (env : ApiEnv) (video_id : String) : Option PyVal × List String :=
  let s1 := _try_static_get_transcript env video_id ["en", "en-US", "en-GB"] []
  let s2 := if truthyOpt s1.1 then s1 else _try_static_list_transcripts env video_id (LANGUAGES_TO_TRY.take 6) s1.2
  let s3 := if truthyOpt s2.1 then s2 else _try_instance_api env video_id (LANGUAGES_TO_TRY.take 6) s2.2
  if truthyOpt s3.1 then s3
  else if env.has_get_transcript then
    match env.get_transcript video_id LANGUAGES_TO_TRY with
    | Except.ok v => (Option.some v, s3.2)
    | Except.error _ => s3
  else s3

/-
The error-message selection of get_video_transcript (lines 247-255),
reached when every strategy left raw_data falsy.
-/
def classify (errors : List String) : String :=
  if errors.any (fun e => strContains (pyLower e) ("disabled")) then
    "⚠️ Subtitles/Captions are disabled for this video. The video owner has not enabled captions."
  else if errors.any (fun e => strContains e ("TranscriptsDisabled")) then
    "⚠️ Transcripts are disabled for this video by the uploader."
  else if errors.any (fun e => strContains e ("NoTranscript")) then
    "⚠️ No transcript available for this video in any supported language."
  else
    "No transcript found. Debug: " ++
      (if !errors.isEmpty then String.intercalate ("; ") errors else "No methods succeeded")

/- The tagged result of get_video_transcript: a transcript list or an error
string, never an exception and never None. -/
inductive RetrievalOutcome : Type where
  | transcript : List PyVal → RetrievalOutcome
  | failure : String → RetrievalOutcome

/-
get_video_transcript (lines 206-258).  The outer `except Exception` arm of
the source converts an unexpected escaping exception into a "System Error"
string; in the embedding every fallible sub-operation is already handled
inside the strategies and the normalizer, so that arm has nothing to catch
and the function is total by construction.
-/
def get_video_transcript (env : ApiEnv) (video_id : String) : RetrievalOutcome :=
  match fetchRaw env video_id with
  | (Option.some v, errs) =>
    if pyTruthy v then
      match normalize_transcript v with
      | [] => .failure ("Transcript found but normalization failed. Raw type: " ++ pyTypeName v)
      | r :: rs => .transcript (r :: rs)
    else .failure (classify errs)
  | (Option.none, errs) => .failure (classify errs)

/-
Helper lemmas shared by several claim proofs.
-/

theorem strContains_iff {s pat : String} :
    strContains s pat = true ↔ pat.data <:+: s.data := by
  simp only [strContains, List.any_eq_true, List.mem_tails,
    List.isPrefixOf_iff_prefix, List.infix_iff_prefix_suffix]
  constructor
  · rintro ⟨t, hts, hpt⟩
    exact ⟨t, hpt, hts⟩
  · rintro ⟨t, hpt, hts⟩
    exact ⟨t, hts, hpt⟩

/- A note that mentions the TranscriptsDisabled kind name also mentions the
word "disabled" once lowercased, so classification rule 1 catches it first. -/
theorem strContains_lower_disabled {e : String}
    (h : strContains e ("TranscriptsDisabled") = true) :
    strContains (pyLower e) ("disabled") = true := by
  rw [strContains_iff] at h ⊢
  have h2 : ("TranscriptsDisabled").data.map Char.toLower <:+: e.data.map Char.toLower :=
    h.map Char.toLower
  have h3 : ("disabled").data <:+: ("TranscriptsDisabled").data.map Char.toLower :=
    ⟨("transcripts").data, [], by decide⟩
  exact h3.trans h2

theorem except_toOption_eq_some {α : Type} {x : Except PyExc α} {a : α} :
    x.toOption = Option.some a ↔ x = Except.ok a := by
  cases x <;> simp [Except.toOption]

/- Every record a successful normalization step yields carries exactly the
three canonical fields. -/
theorem normalizeItemExc_canon {i r : PyVal}
    (h : normalizeItemExc i = Except.ok r) :
    ∃ t s d, r = canonRec t s d := by
  cases i with
  | dict entries =>
    simp only [normalizeItemExc, bind, Except.bind] at h
    rcases h1 : pyFloatExc (dictGet entries ("start") (.float 0)) with e1 | s1 <;> rw [h1] at h
    · exact absurd h (by simp)
    rcases h2 : pyFloatExc (dictGet entries ("duration") (.float 0)) with e2 | d1 <;> rw [h2] at h
    · exact absurd h (by simp)
    exact ⟨_, _, _, (Except.ok.injEq _ _ ▸ h).symm⟩
  | obj attrs =>
    simp only [normalizeItemExc] at h
    rcases hl : attrs.lookup ("text") with _ | tv <;> rw [hl] at h
    · exact ⟨_, _, _, (Except.ok.injEq _ _ ▸ h).symm⟩
    · cases tv with
      | str t =>
        simp only [bind, Except.bind] at h
        rcases h1 : pyFloatExc (attrGetF attrs ("start")) with e1 | s1 <;> rw [h1] at h
        · exact absurd h (by simp)
        rcases h2 : pyFloatExc (attrGetF attrs ("duration")) with e2 | d1 <;> rw [h2] at h
        · exact absurd h (by simp)
        exact ⟨_, _, _, (Except.ok.injEq _ _ ▸ h).symm⟩
      | dict es =>
        simp only [bind, Except.bind] at h
        rcases h1 : pyFloatExc (attrGetF attrs ("start")) with e1 | s1 <;> rw [h1] at h
        · exact absurd h (by simp)
        rcases h2 : pyFloatExc (attrGetF attrs ("duration")) with e2 | d1 <;> rw [h2] at h
        · exact absurd h (by simp)
        exact ⟨_, _, _, (Except.ok.injEq _ _ ▸ h).symm⟩
      | none =>
        simp only [bind, Except.bind] at h
        rcases h1 : pyFloatExc (attrGetF attrs ("start")) with e1 | s1 <;> rw [h1] at h
        · exact absurd h (by simp)
        rcases h2 : pyFloatExc (attrGetF attrs ("duration")) with e2 | d1 <;> rw [h2] at h
        · exact absurd h (by simp)
        exact ⟨_, _, _, (Except.ok.injEq _ _ ▸ h).symm⟩
      | bool b =>
        simp only [bind, Except.bind] at h
        rcases h1 : pyFloatExc (attrGetF attrs ("start")) with e1 | s1 <;> rw [h1] at h
        · exact absurd h (by simp)
        rcases h2 : pyFloatExc (attrGetF attrs ("duration")) with e2 | d1 <;> rw [h2] at h
        · exact absurd h (by simp)
        exact ⟨_, _, _, (Except.ok.injEq _ _ ▸ h).symm⟩
      | int n =>
        simp only [bind, Except.bind] at h
        rcases h1 : pyFloatExc (attrGetF attrs ("start")) with e1 | s1 <;> rw [h1] at h
        · exact absurd h (by simp)
        rcases h2 : pyFloatExc (attrGetF attrs ("duration")) with e2 | d1 <;> rw [h2] at h
        · exact absurd h (by simp)
        exact ⟨_, _, _, (Except.ok.injEq _ _ ▸ h).symm⟩
      | float q =>
        simp only [bind, Except.bind] at h
        rcases h1 : pyFloatExc (attrGetF attrs ("start")) with e1 | s1 <;> rw [h1] at h
        · exact absurd h (by simp)
        rcases h2 : pyFloatExc (attrGetF attrs ("duration")) with e2 | d1 <;> rw [h2] at h
        · exact absurd h (by simp)
        exact ⟨_, _, _, (Except.ok.injEq _ _ ▸ h).symm⟩
      | list xs =>
        simp only [bind, Except.bind] at h
        rcases h1 : pyFloatExc (attrGetF attrs ("start")) with e1 | s1 <;> rw [h1] at h
        · exact absurd h (by simp)
        rcases h2 : pyFloatExc (attrGetF attrs ("duration")) with e2 | d1 <;> rw [h2] at h
        · exact absurd h (by simp)
        exact ⟨_, _, _, (Except.ok.injEq _ _ ▸ h).symm⟩
      | obj os =>
        simp only [bind, Except.bind] at h
        rcases h1 : pyFloatExc (attrGetF attrs ("start")) with e1 | s1 <;> rw [h1] at h
        · exact absurd h (by simp)
        rcases h2 : pyFloatExc (attrGetF attrs ("duration")) with e2 | d1 <;> rw [h2] at h
        · exact absurd h (by simp)
        exact ⟨_, _, _, (Except.ok.injEq _ _ ▸ h).symm⟩
  | none => exact ⟨_, _, _, (Except.ok.injEq _ _ ▸ h).symm⟩
  | bool b => exact ⟨_, _, _, (Except.ok.injEq _ _ ▸ h).symm⟩
  | int n => exact ⟨_, _, _, (Except.ok.injEq _ _ ▸ h).symm⟩
  | float q => exact ⟨_, _, _, (Except.ok.injEq _ _ ▸ h).symm⟩
  | str s => exact ⟨_, _, _, (Except.ok.injEq _ _ ▸ h).symm⟩
  | list xs => exact ⟨_, _, _, (Except.ok.injEq _ _ ▸ h).symm⟩

/- A canonical record re-normalizes to itself (CASE B with all fields already
of the declared types). -/
theorem normalizeItem_canonRec (t : String) (s d : ℚ) :
    normalizeItem (canonRec t s d) = Option.some (canonRec t s d) := rfl

/- Every element of a normalized transcript is a canonical record. -/
theorem normalize_mem_canonical {v r : PyVal}
    (h : r ∈ normalize_transcript v) : ∃ t s d, r = canonRec t s d := by
  simp only [normalize_transcript] at h
  rcases hl : pyListExc (unwrapSnippets v) with e | items <;> simp only [hl] at h
  · exact absurd h (by simp)
  · rcases List.mem_filterMap.mp h with ⟨it, _, hit⟩
    exact normalizeItemExc_canon (except_toOption_eq_some.mp hit)

/- A list of canonical records is a fixed point of the normalization loop. -/
theorem filterMap_normalizeItem_canon :
    ∀ l : List PyVal, (∀ r ∈ l, ∃ t s d, r = canonRec t s d) →
      l.filterMap normalizeItem = l := by
  intro l h
  induction l with
  | nil => rfl
  | cons x xs ih =>
    obtain ⟨t, s, d, rfl⟩ := h x (List.mem_cons_self x xs)
    rw [List.filterMap_cons, normalizeItem_canonRec]
    rw [ih (fun r hr => h r (List.mem_cons_of_mem _ hr))]

theorem pyEq_float (q r : ℚ) : pyEq (.float q) (.float r) = decide (q = r) := by
  simp [pyEq, numVal]

theorem pyEq_str (s t : String) : pyEq (.str s) (.str t) = (s == t) := by
  simp [pyEq, numVal]

theorem pyEq_dict (d1 d2 : List (String × PyVal)) :
    pyEq (.dict d1) (.dict d2) = (d1.length == d2.length && pyEqDictSub d1 d2) := by
  simp [pyEq, numVal]

theorem pyEqList_nil : pyEqList [] [] = true := by
  simp [pyEqList]

theorem pyEqList_cons (x y : PyVal) (xs ys : List PyVal) :
    pyEqList (x :: xs) (y :: ys) = (pyEq x y && pyEqList xs ys) := by
  simp [pyEqList]

theorem pyEqDictSub_nil (d2 : List (String × PyVal)) : pyEqDictSub [] d2 = true := by
  simp [pyEqDictSub]

theorem pyEqDictSub_cons (k : String) (v : PyVal) (rest d2 : List (String × PyVal)) :
    pyEqDictSub ((k, v) :: rest) d2 = (pyEqLookup k v d2 && pyEqDictSub rest d2) := by
  simp [pyEqDictSub]

theorem pyEqLookup_of_lookup {k : String} {v w : PyVal} {d : List (String × PyVal)}
    (hl : d.lookup k = Option.some w) (he : pyEq v w = true) :
    pyEqLookup k v d = true := by
  induction d with
  | nil => simp [List.lookup] at hl
  | cons kv rest ih =>
    obtain ⟨k2, w2⟩ := kv
    rw [pyEqLookup]
    rcases hk : (k == k2) with _ | _
    · rw [List.lookup] at hl
      rw [hk] at hl
      simp only [hk, Bool.false_eq_true, if_false]
      exact ih hl
    · rw [List.lookup] at hl
      rw [hk] at hl
      simp only [Option.some.injEq] at hl
      simp only [hk, if_true]
      rw [← hl] at he
      exact he

/-
Claim theorems.
-/

/- Environment for C1: the direct-call strategy raises TranscriptsDisabled
(recording the one kind-tagged note), the listing capability is absent, the
instance listing is falsy, and the broadened-language retry raises again
(silently).  All four strategies fail and the only note is the kind tag. -/
def envC1 : ApiEnv :=
  ⟨true, false,
   fun _ _ => Except.error ⟨.transcriptsDisabled, "Transcripts are disabled"⟩,
   fun _ => Except.error ⟨.other, "unused"⟩,
   Except.ok (),
   fun _ => Except.ok ⟨false, false, false,
     fun _ => Except.error ⟨.other, "u"⟩, fun _ => Except.error ⟨.other, "u"⟩, Except.ok []⟩⟩

/-- C1 counterexample: a run in which all four strategies fail and the single
accumulated note records the TranscriptsDisabled condition by kind returns the
rule-1 captions-disabled message, not the rule-2 transcripts-disabled message
the claim requires: the kind tag itself contains "disabled" once lowercased,
so the first classification rule fires before the second. -/
theorem c1_counterexample :
    fetchRaw envC1 ("v") = (Option.none, ["Static get_transcript: TranscriptsDisabled"]) ∧
    get_video_transcript envC1 ("v") =
      .failure ("⚠️ Subtitles/Captions are disabled for this video. The video owner has not enabled captions.") ∧
    ("⚠️ Subtitles/Captions are disabled for this video. The video owner has not enabled captions." : String) ≠
      "⚠️ Transcripts are disabled for this video by the uploader." :=
  ⟨rfl, rfl, by decide⟩

/-- C1 (amended): whenever all strategies leave the payload falsy and at least
one accumulated note records the TranscriptsDisabled condition by kind, the
returned failure string is the rule-1 message stating captions/subtitles are
disabled, because the kind tag contains "disabled" case-insensitively and the
first matching rule wins; the rule-2 message is unreachable for such notes. -/
theorem c1_kind_note_classified_as_captions_disabled
    (env : ApiEnv) (vid : String) (raw : Option PyVal) (errs : List String)
    (hf : fetchRaw env vid = (raw, errs))
    (hr : truthyOpt raw = false)
    (he : ∃ e ∈ errs, strContains e ("TranscriptsDisabled") = true) :
    get_video_transcript env vid =
      .failure ("⚠️ Subtitles/Captions are disabled for this video. The video owner has not enabled captions.") := by
  obtain ⟨e, hmem, hc⟩ := he
  have hany : errs.any (fun e => strContains (pyLower e) ("disabled")) = true :=
    List.any_eq_true.mpr ⟨e, hmem, strContains_lower_disabled hc⟩
  have hcl : classify errs =
      "⚠️ Subtitles/Captions are disabled for this video. The video owner has not enabled captions." := by
    unfold classify
    rw [hany]
    rfl
  unfold get_video_transcript
  rw [hf]
  cases raw with
  | none => exact congrArg RetrievalOutcome.failure hcl
  | some v =>
    have hv : pyTruthy v = false := hr
    simp only [hv, Bool.false_eq_true, if_false]
    exact congrArg RetrievalOutcome.failure hcl

/-- C1 witness for the amended theorem, at the concrete run of the
counterexample environment. -/
theorem c1_witness :
    get_video_transcript envC1 ("v") =
      .failure ("⚠️ Subtitles/Captions are disabled for this video. The video owner has not enabled captions.") :=
  c1_kind_note_classified_as_captions_disabled envC1 ("v") Option.none
    ["Static get_transcript: TranscriptsDisabled"] rfl rfl
    ⟨"Static get_transcript: TranscriptsDisabled", by simp, by decide⟩

/- Environment for C2: every strategy is attempted and fails, yet no note is
appended anywhere — strategy 1 returns an empty payload, strategy 2 exhausts
an empty track list, strategy 3 finds no lookup capability and an empty track
list, and strategy 4 raises into its bare `except: pass`. -/
def envC2 : ApiEnv :=
  ⟨true, true,
   fun _ langs => if langs = ["en", "en-US", "en-GB"] then Except.ok (.list []) else Except.error ⟨.other, "boom"⟩,
   fun _ => Except.ok ⟨fun _ => Except.error ⟨.other, "x"⟩, fun _ => Except.error ⟨.other, "y"⟩, Except.ok []⟩,
   Except.ok (),
   fun _ => Except.ok ⟨true, false, false,
     fun _ => Except.error ⟨.other, "z"⟩, fun _ => Except.error ⟨.other, "w"⟩, Except.ok []⟩⟩

/-- C2 counterexample: a run in which all four strategies are attempted and
fail to produce a payload while the accumulated note list stays empty, so it
is not the case that every failing strategy appends a note; in particular the
broadened-language strategy can never append one (bare `except: pass`). -/
theorem c2_counterexample :
    fetchRaw envC2 ("vid") = (Option.none, ([] : List String)) ∧
    get_video_transcript envC2 ("vid") =
      .failure ("No transcript found. Debug: No methods succeeded") :=
  ⟨rfl, rfl⟩

/-- C2 (amended): when the underlying service call of strategy 1, 2 or 3
raises one of the three kind-classified conditions, that strategy appends
exactly one diagnostic note tagged with the strategy and the condition name;
but failure paths that raise nothing (absent capability, empty payload,
exhausted or falsy track listings, a listing error mentioning disabled
subtitles) and the entire broadened-language strategy leave the list
untouched. -/
theorem c2_kind_errors_append_tagged_notes :
    (∀ (env : ApiEnv) (vid : String) (langs errs : List String) (e : PyExc),
      env.has_get_transcript = true →
      env.get_transcript vid langs = Except.error e →
      kindCaught e.kind = true →
      _try_static_get_transcript env vid langs errs =
        (Option.none, errs ++ ["Static get_transcript: " ++ excName e.kind])) ∧
    (∀ (env : ApiEnv) (vid : String) (langs errs : List String) (e : PyExc),
      env.has_list_transcripts = true →
      env.list_transcripts vid = Except.error e →
      kindCaught e.kind = true →
      _try_static_list_transcripts env vid langs errs =
        (Option.none, errs ++ ["Static list_transcripts: " ++ excName e.kind])) ∧
    (∀ (env : ApiEnv) (vid : String) (langs errs : List String) (e : PyExc),
      env.instantiate = Except.ok () →
      env.inst_list vid = Except.error e →
      kindCaught e.kind = true →
      _try_instance_api env vid langs errs =
        (Option.none, errs ++ ["Instance list: " ++ excName e.kind])) := by
  refine ⟨?_, ?_, ?_⟩ <;> intro env vid langs errs e h1 h2 h3
  · unfold _try_static_get_transcript
    simp [h1, h2, h3]
  · unfold _try_static_list_transcripts
    simp [h1, h2, h3]
  · unfold _try_instance_api
    simp [h1, h2, h3]

/- Environment for the C2 witness: each interface raises one of the three
kind-classified conditions. -/
def envC2W : ApiEnv :=
  ⟨true, true,
   fun _ _ => Except.error ⟨.noTranscriptFound, "nf"⟩,
   fun _ => Except.error ⟨.transcriptsDisabled, "td"⟩,
   Except.ok (),
   fun _ => Except.error ⟨.noTranscriptAvailable, "na"⟩⟩

/-- C2 witness for the amended theorem at concrete kind-classified errors. -/
theorem c2_witness :
    _try_static_get_transcript envC2W ("v") ["en"] [] =
      (Option.none, ["Static get_transcript: NoTranscriptFound"]) ∧
    _try_static_list_transcripts envC2W ("v") ["en"] [] =
      (Option.none, ["Static list_transcripts: TranscriptsDisabled"]) ∧
    _try_instance_api envC2W ("v") ["en"] [] =
      (Option.none, ["Instance list: NoTranscriptAvailable"]) :=
  ⟨c2_kind_errors_append_tagged_notes.1 envC2W ("v") ["en"] [] ⟨.noTranscriptFound, "nf"⟩ rfl rfl rfl,
   c2_kind_errors_append_tagged_notes.2.1 envC2W ("v") ["en"] [] ⟨.transcriptsDisabled, "td"⟩ rfl rfl rfl,
   c2_kind_errors_append_tagged_notes.2.2 envC2W ("v") ["en"] [] ⟨.noTranscriptAvailable, "na"⟩ rfl rfl rfl⟩

/- The input element used to refute C3: it contains the three canonical keys
with their declared types, plus one extra key. -/
def c3dict : List (String × PyVal) :=
  [(("text" : String), .str ("a")), (("start" : String), .float 0),
   (("duration" : String), .float 1), (("extra" : String), .int 0)]

/-- C3 counterexample: a one-element list whose element contains the keys
text, start and duration with the declared types (plus one extra key)
satisfies the claim's hypothesis, yet normalization drops the extra key, so
the result is not Python-equal to the input and normalization is not the
identity there. -/
theorem c3_counterexample :
    (c3dict.lookup ("text") = Option.some (.str ("a")) ∧
     c3dict.lookup ("start") = Option.some (.float 0) ∧
     c3dict.lookup ("duration") = Option.some (.float 1)) ∧
    pyEqList (normalize_transcript (.list [.dict c3dict])) [.dict c3dict] = false := by
  refine ⟨⟨rfl, rfl, rfl⟩, ?_⟩
  show pyEqList [canonRec ("a") 0 1] [.dict c3dict] = false
  simp only [canonRec, c3dict]
  rw [pyEqList_cons, pyEq_dict]
  simp

/-- C3 (amended): normalization is the identity transform (up to Python
equality, which ignores dict key order) on every list whose elements are
mappings containing exactly the keys text, start and duration, with text a
string and start and duration floating-point numbers; an element with extra
keys loses them, so exactness is required. -/
theorem c3_exactly_canonical_input_identity (l : List PyVal)
    (h : ∀ x ∈ l, ∃ (t : String) (s dr : ℚ) (d : List (String × PyVal)), x = .dict d ∧
      d.length = 3 ∧
      d.lookup ("text") = Option.some (.str t) ∧
      d.lookup ("start") = Option.some (.float s) ∧
      d.lookup ("duration") = Option.some (.float dr)) :
    pyEqList (normalize_transcript (.list l)) l = true := by
  show pyEqList (l.filterMap normalizeItem) l = true
  induction l with
  | nil => exact pyEqList_nil
  | cons x xs ih =>
    obtain ⟨t, s, dr, d, rfl, hlen, ht, hs, hd⟩ := h x (List.mem_cons_self x xs)
    have hx : normalizeItem (.dict d) = Option.some (canonRec t s dr) := by
      unfold normalizeItem normalizeItemExc
      simp [dictGet, ht, hs, hd, pyFloatExc, pyStr, Except.toOption, bind, Except.bind]
    rw [List.filterMap_cons, hx, pyEqList_cons]
    have hstr : pyEq (.str t) (.str t) = true := by
      rw [pyEq_str]; simp
    have hflo : ∀ q : ℚ, pyEq (.float q) (.float q) = true := by
      intro q; rw [pyEq_float]; simp
    have he : pyEq (canonRec t s dr) (.dict d) = true := by
      show pyEq (.dict [(("text" : String), .str t), (("start" : String), .float s),
        (("duration" : String), .float dr)]) (.dict d) = true
      rw [pyEq_dict, pyEqDictSub_cons, pyEqDictSub_cons, pyEqDictSub_cons, pyEqDictSub_nil]
      rw [pyEqLookup_of_lookup ht hstr,
          pyEqLookup_of_lookup hs (hflo s),
          pyEqLookup_of_lookup hd (hflo dr)]
      simp [hlen]
    rw [he, ih (fun x hx => h x (List.mem_cons_of_mem _ hx))]
    rfl

/-- C3 witness for the amended theorem at a concrete exactly-canonical list. -/
theorem c3_witness :
    pyEqList
      (normalize_transcript (.list [.dict [(("text" : String), .str ("w")),
        (("start" : String), .float 3), (("duration" : String), .float 4)]]))
      [.dict [(("text" : String), .str ("w")),
        (("start" : String), .float 3), (("duration" : String), .float 4)]] = true :=
  c3_exactly_canonical_input_identity _ (by
    intro x hx
    rw [List.mem_singleton] at hx
    subst hx
    exact ⟨"w", 3, 4, _, rfl, rfl, rfl, rfl, rfl⟩)

/-- C4: for every environment and video id, get_video_transcript terminates
with either a failure string or a non-empty transcript list; it never raises,
never returns None and never returns an empty list (an empty normalization
result is converted to a failure string). -/
theorem c4_total_nonempty_or_failure (env : ApiEnv) (vid : String) :
    (∃ s, get_video_transcript env vid = .failure s) ∨
    (∃ recs, get_video_transcript env vid = .transcript recs ∧ recs ≠ []) := by
  rcases hf : fetchRaw env vid with ⟨raw, errs⟩
  unfold get_video_transcript
  rw [hf]
  cases raw with
  | none => exact Or.inl ⟨_, rfl⟩
  | some v =>
    by_cases ht : pyTruthy v = true
    · rcases hn : normalize_transcript v with _ | ⟨r, rs⟩
      · exact Or.inl ⟨"Transcript found but normalization failed. Raw type: " ++ pyTypeName v,
          by simp [ht, hn]⟩
      · exact Or.inr ⟨r :: rs, by simp [ht, hn], by simp⟩
    · exact Or.inl ⟨classify errs, by simp [ht]⟩

/- The single generated-track entry of C5's scenario, already canonical. -/
def c5entry : PyVal :=
  .dict [(("text" : String), .str ("Hi")), (("start" : String), .float 5),
         (("duration" : String), .float 2)]

/-- C5: strategies run in the fixed order direct-call, listing, instance,
broadened-language, stopping at the first truthy payload: with the
direct-call strategy returning an empty payload (which counts as failure),
the listing strategy's manual lookup raising, and its generated lookup
succeeding with one entry, that entry is returned for every possible
behaviour of the two remaining strategies — they are never consulted. -/
theorem c5_first_nonempty_payload_wins
    (g : String → List String → Except PyExc PyVal)
    (inst : Except PyExc Unit)
    (il : String → Except PyExc InstTranscriptList)
    (vid : String) :
    get_video_transcript
      ⟨true, true,
       (fun v langs => if langs = ["en", "en-US", "en-GB"] then Except.ok (.list []) else g v langs),
       (fun _ => Except.ok ⟨(fun _ => Except.error ⟨.other, "manual lookup failed"⟩),
                            (fun _ => Except.ok ⟨Except.ok (.list [c5entry])⟩),
                            Except.ok []⟩),
       inst, il⟩ vid
    = .transcript [c5entry] := rfl

/-- C6: every record normalize_transcript returns carries exactly the fields
text (a string), start and duration (floating-point), never partially
populated; and an entry whose processing fails is skipped while every other
entry is still processed. -/
theorem c6_records_canonical_and_failures_skipped :
    (∀ v r, r ∈ normalize_transcript v → isCanonRec r = true) ∧
    (∀ pre bad post, normalizeItem bad = Option.none →
      normalize_transcript (.list (pre ++ bad :: post)) =
        normalize_transcript (.list pre) ++ normalize_transcript (.list post)) := by
  constructor
  · intro v r hr
    obtain ⟨t, s, d, rfl⟩ := normalize_mem_canonical hr
    rfl
  · intro pre bad post hbad
    show (pre ++ bad :: post).filterMap normalizeItem =
      pre.filterMap normalizeItem ++ post.filterMap normalizeItem
    rw [List.filterMap_append, List.filterMap_cons, hbad]

/-- C6 witness: a canonical record produced from a concrete input is fully
typed, and a concrete failing entry (a dict whose start field is None, so
float() raises) is dropped without affecting the rest. -/
theorem c6_witness :
    isCanonRec (canonRec ("x") 1 2) = true ∧
    normalize_transcript (.list ([] ++ PyVal.dict [(("start" : String), PyVal.none)] :: [])) =
      normalize_transcript (.list []) ++ normalize_transcript (.list []) :=
  ⟨c6_records_canonical_and_failures_skipped.1 (.list [canonRec ("x") 1 2]) (canonRec ("x") 1 2)
     (List.Mem.head _),
   c6_records_canonical_and_failures_skipped.2 [] (PyVal.dict [(("start" : String), PyVal.none)]) [] rfl⟩

/-- C7: normalize_transcript returns the empty list both on an empty input
list and on any input that exposes no snippets sub-collection and is not
coercible to a list; it never raises and never returns a non-list. -/
theorem c7_empty_or_uncoercible_yields_empty :
    normalize_transcript (.list []) = [] ∧
    (∀ v, hasSnippetsAttr v = false → (∃ e, pyListExc v = Except.error e) →
      normalize_transcript v = []) := by
  constructor
  · rfl
  · rintro v hs ⟨e, he⟩
    have hu : unwrapSnippets v = v := by
      cases v
      case obj attrs =>
        simp only [hasSnippetsAttr, Bool.not_eq_false', Option.isNone_iff_eq_none] at hs
        simp [unwrapSnippets, hs]
      all_goals rfl
    simp [normalize_transcript, hu, he]

/-- C7 witness at a concrete non-iterable input. -/
theorem c7_witness : normalize_transcript (.int 5) = [] :=
  c7_empty_or_uncoercible_yields_empty.2 (.int 5) rfl
    ⟨⟨.other, "object is not iterable"⟩, rfl⟩

/-- C8: when the direct-call strategy returns the payload
[{"text": "Hello", "start": 0, "duration": 1}], get_video_transcript returns
the canonical list [{"text": "Hello", "start": 0.0, "duration": 1.0}] with
the integer fields coerced to floating-point, whatever the behaviour of the
remaining interfaces. -/
theorem c8_direct_strategy_end_to_end
    (hlt : Bool) (lt : String → Except PyExc StaticTranscriptList)
    (inst : Except PyExc Unit) (il : String → Except PyExc InstTranscriptList)
    (vid : String) :
    get_video_transcript
      ⟨true, hlt,
       (fun _ _ => Except.ok (.list [.dict [(("text" : String), .str ("Hello")),
         (("start" : String), .int 0), (("duration" : String), .int 1)]])),
       lt, inst, il⟩ vid
    = .transcript [.dict [(("text" : String), .str ("Hello")),
        (("start" : String), .float 0), (("duration" : String), .float 1)]] := rfl

/-- C9: normalize_transcript is total — for every input it returns a list: a
failed top-level coercion yields the empty list, and every returned record
originates from an input entry whose processing succeeded, failures having
been dropped without propagating any exception. -/
theorem c9_normalize_total_and_output_provenance (data : PyVal) :
    ((∃ e, pyListExc (unwrapSnippets data) = Except.error e) → normalize_transcript data = []) ∧
    (∀ r, r ∈ normalize_transcript data →
      ∃ items it, pyListExc (unwrapSnippets data) = Except.ok items ∧ it ∈ items ∧
        normalizeItemExc it = Except.ok r) := by
  constructor
  · rintro ⟨e, he⟩
    simp [normalize_transcript, he]
  · intro r hr
    rcases hl : pyListExc (unwrapSnippets data) with e | items
    · rw [normalize_transcript] at hr
      simp only [hl] at hr
      exact absurd hr (List.not_mem_nil r)
    · rw [normalize_transcript] at hr
      simp only [hl] at hr
      rcases List.mem_filterMap.mp hr with ⟨it, hin, hit⟩
      exact ⟨items, it, rfl, hin, except_toOption_eq_some.mp hit⟩

/-- C9 witness: a non-coercible input yields the empty list, and the output
record of a concrete canonical input is traced back to its source entry. -/
theorem c9_witness :
    normalize_transcript (.int 7) = [] ∧
    (∃ items it, pyListExc (unwrapSnippets (.list [canonRec ("a") 0 1])) = Except.ok items ∧
      it ∈ items ∧ normalizeItemExc it = Except.ok (canonRec ("a") 0 1)) :=
  ⟨(c9_normalize_total_and_output_provenance (.int 7)).1 ⟨⟨.other, "object is not iterable"⟩, rfl⟩,
   (c9_normalize_total_and_output_provenance (.list [canonRec ("a") 0 1])).2 (canonRec ("a") 0 1)
     (List.Mem.head _)⟩

/-- C10: normalize_transcript is idempotent — re-normalizing its own output
returns the same list, since every output record is canonical and canonical
records re-normalize to themselves. -/
theorem c10_normalize_idempotent (v : PyVal) :
    normalize_transcript (.list (normalize_transcript v)) = normalize_transcript v := by
  show (normalize_transcript v).filterMap normalizeItem = normalize_transcript v
  exact filterMap_normalizeItem_canon _ (fun r hr => normalize_mem_canonical hr)
